import Mathlib

/-!
# Hermes authentication core — shallow embedding

A shallow embedding, in Lean 4, of the token-lifecycle core of the Hermes
authentication service:

* `src/database/models.py` — the `RefreshTokenDB` ledger record;
* `src/repositories/refresh_token_repository.py` — the ledger operations;
* `src/services/auth.py` — credential verification, token mint/verify,
  `create_and_store_tokens`;
* `src/routers/auth.py` — the refresh endpoint's rotation step;
* `src/utils/dependencies.py` — `get_current_user` (the access-token path);
* `src/utils/security.py`, `src/utils/validators.py`, `src/config.py`.

Modelling conventions:

* Timestamps (`datetime.now(timezone.utc)`) are natural numbers; each
  operation that reads the clock takes `now : Nat` explicitly.
* The SQL table of refresh tokens is a `List RefreshTokenDB` in insertion
  order (primary-key order); `SELECT ... .first()` is `List.find?`,
  row UPDATE is an in-place replacement at the row's position.
* The PyJWT library is external to the repository.  `jwt.encode` /
  `jwt.decode` are modelled by their documented semantics: a signed token
  is its claim set together with the signing algorithm and secret, and
  decoding succeeds exactly when the secret and algorithm match, the
  expiry has not elapsed (`exp <= now` fails), and issuer and audience
  match — any failure collapses to `none`, the uniform
  `InvalidTokenError` outcome.
* SHA-256 (`hash_token`) is modelled as a collision-free one-way hash:
  the hash value is an opaque wrapper around the hashed token, so hash
  equality coincides with token equality.
* Argon2 password verification (`pwdlib`) is external; `authenticate_user`
  is parameterised by the verification oracle `vp` and instrumented to
  record the list of `(password, hash)` arguments passed to it, so that
  call-count properties can be stated.
-/

/-- `src/schemas/auth.py` — the token type discriminator stored in the
`type` claim. -/
inductive TokenType where
  | access
  | refresh
deriving DecidableEq, Repr

/-- The claim set carried by a signed token: `sub`, `type`, `jti` are
optional (absent keys give `payload.get(...) = None`); `exp`, `iat`,
`iss`, `aud` are always written by the minting functions but a presented
token may carry anything. -/
structure Claims where
  sub : Option String
  type : Option TokenType
  jti : Option String
  exp : Nat
  iat : Nat
  iss : String
  aud : String
deriving DecidableEq, Repr

/-- A compact-encoded JWT, modelled as its claims plus the algorithm and
secret it was signed with (signature validity = same algorithm and
secret at decode time). -/
structure SignedToken where
  claims : Claims
  alg : String
  secret : String
deriving DecidableEq, Repr

/-- `hash_token` output (`src/utils/security.py`): SHA-256 modelled as a
collision-free one-way hash, an opaque wrapper around the hashed token. -/
structure TokenHash where
  data : SignedToken
deriving DecidableEq, Repr

/-- `src/utils/security.py` `hash_token`. -/
def hash_token (token : SignedToken) : TokenHash := ⟨token⟩

/-- `src/database/models.py` `RefreshTokenDB` (the integer autoincrement
primary key is the row's position in the list). -/
structure RefreshTokenDB where
  jti : String
  token_hash : TokenHash
  user_uuid : String
  expires_at : Nat
  created_at : Nat
  revoked : Bool
  revoked_at : Option Nat
deriving DecidableEq, Repr

/-- The refresh-token table, in primary-key (insertion) order. -/
abbrev Ledger := List RefreshTokenDB

/-- `src/database/models.py` `UserDB` projected to the fields the
authentication core reads (`UserInDB` schema). -/
structure UserInDB where
  uuid : String
  username : String
  hashed_password : String
  disabled : Bool
deriving DecidableEq, Repr

/-- `src/schemas/user.py` `User` — the public projection, without the
password hash. -/
structure User where
  uuid : String
  username : String
  disabled : Bool
deriving DecidableEq, Repr

/-- `User.model_validate(user, from_attributes=True)` — drops the hash. -/
def toPublicUser (u : UserInDB) : User :=
  { uuid := u.uuid, username := u.username, disabled := u.disabled }

/-- `src/services/user.py` `get_user` via
`UserRepository.get_by_username`: first row matching the username. -/
def get_user (users : List UserInDB) (username : String) : Option UserInDB :=
  users.find? (fun u => u.username == username)

/-- `src/services/user.py` `get_user_by_uuid`: first row matching the
uuid, projected to the public `User`. -/
def get_user_by_uuid (users : List UserInDB) (uuid : String) : Option User :=
  (users.find? (fun u => u.uuid == uuid)).map toPublicUser

namespace RefreshTokenRepository

/-- `RefreshTokenRepository.get_by_jti`: first row with this `jti`. -/
def get_by_jti (db : Ledger) (jti : String) : Option RefreshTokenDB :=
  db.find? (fun r => r.jti == jti)

/-- `RefreshTokenRepository.get_valid_token_by_jti`: first row with this
`jti` that is not revoked and has `expires_at > now`. -/
def get_valid_token_by_jti (db : Ledger) (jti : String) (now : Nat) :
    Option RefreshTokenDB :=
  db.find? (fun r => r.jti == jti && !r.revoked && decide (now < r.expires_at))

/-- `RefreshTokenRepository.create`: insert a fresh row
(`created_at` defaults to the current time, `revoked` to `False`,
`revoked_at` to `NULL`); returns the row and the new table. -/
def create (db : Ledger) (jti : String) (token_hash : TokenHash)
    (user_uuid : String) (expires_at : Nat) (now : Nat) :
    RefreshTokenDB × Ledger :=
  let r : RefreshTokenDB :=
    { jti := jti, token_hash := token_hash, user_uuid := user_uuid,
      expires_at := expires_at, created_at := now,
      revoked := false, revoked_at := none }
  (r, db ++ [r])

/-- `RefreshTokenRepository.revoke` applied to a row object: sets
`revoked = True` and `revoked_at = now` unconditionally. -/
def revokeRecord (r : RefreshTokenDB) (now : Nat) : RefreshTokenDB :=
  { r with revoked := true, revoked_at := some now }

/-- `RefreshTokenRepository.revoke_by_jti`: look up the first row with
this `jti`; if it exists and is not revoked, revoke it and return
`True`, else return `False` and change nothing. -/
def revoke_by_jti (db : Ledger) (jti : String) (now : Nat) : Bool × Ledger :=
  match db with
  | [] => (false, [])
  | r :: rs =>
    if r.jti == jti then
      if r.revoked then (false, r :: rs)
      else (true, revokeRecord r now :: rs)
    else
      let p := revoke_by_jti rs jti now
      (p.1, r :: p.2)

/-- `RefreshTokenRepository.revoke_all_for_user`: revoke every
not-revoked row of this user; return how many were revoked. -/
def revoke_all_for_user (db : Ledger) (user_uuid : String) (now : Nat) :
    Nat × Ledger :=
  match db with
  | [] => (0, [])
  | r :: rs =>
    let p := revoke_all_for_user rs user_uuid now
    if r.user_uuid == user_uuid && !r.revoked then
      (p.1 + 1, revokeRecord r now :: p.2)
    else
      (p.1, r :: p.2)

/-- `RefreshTokenRepository.delete_expired_tokens`: delete every row with
`expires_at < now` (revoked or not); return how many were deleted. -/
def delete_expired_tokens (db : Ledger) (now : Nat) : Nat × Ledger :=
  ((db.filter (fun r => decide (r.expires_at < now))).length,
   db.filter (fun r => !decide (r.expires_at < now)))

/-- The `WHERE` predicate of `count_active_tokens_for_user`: same user,
not revoked, `expires_at > now`. -/
def isActiveFor (user_uuid : String) (now : Nat) (r : RefreshTokenDB) : Bool :=
  r.user_uuid == user_uuid && !r.revoked && decide (now < r.expires_at)

/-- `RefreshTokenRepository.count_active_tokens_for_user`. -/
def count_active_tokens_for_user (db : Ledger) (user_uuid : String)
    (now : Nat) : Nat :=
  (db.filter (isActiveFor user_uuid now)).length

/-- The `WHERE` predicate of `revoke_oldest_tokens`: same user and not
revoked — note: no expiry condition in the source. -/
def isUnrevokedFor (user_uuid : String) (r : RefreshTokenDB) : Bool :=
  r.user_uuid == user_uuid && !r.revoked

/-- `ORDER BY created_at LIMIT 1` over the rows satisfying `p`, starting
the index count at `i`: the position and value of the first row carrying
the minimal `created_at` among the rows satisfying `p`. -/
def oldestIdx (p : RefreshTokenDB → Bool) :
    Ledger → Nat → Option (Nat × RefreshTokenDB)
  | [], _ => none
  | r :: rs, i =>
    match oldestIdx p rs (i + 1) with
    | none => if p r then some (i, r) else none
    | some (j, s) =>
      if p r then
        if s.created_at < r.created_at then some (j, s) else some (i, r)
      else some (j, s)

/-- `RefreshTokenRepository.revoke_oldest_tokens`: revoke the
earliest-created **not-revoked** row of this user (expired or not) and
return `True`; return `False` when the user has no not-revoked row. -/
def revoke_oldest_tokens (db : Ledger) (user_uuid : String) (now : Nat) :
    Bool × Ledger :=
  match oldestIdx (isUnrevokedFor user_uuid) db 0 with
  | none => (false, db)
  | some (i, r) => (true, db.set i (revokeRecord r now))

end RefreshTokenRepository

/-- `src/config.py` — the process-wide configuration values consumed by
the token core, as an explicit value object. -/
structure Config where
  SECRET_KEY : String
  REFRESH_SECRET_KEY : String
  ALGORITHM : String
  ACCESS_TOKEN_EXPIRE_MINUTES : Nat
  REFRESH_TOKEN_EXPIRE_DAYS : Nat
  MAX_ACTIVE_TOKENS_PER_USER : Nat
  JWT_ISSUER : String
  JWT_AUDIENCE : String
deriving DecidableEq, Repr

/-- `jwt.decode(token, secret, algorithms=[alg], audience=aud,
issuer=iss)` at time `now`: succeeds with the payload exactly when the
signature verifies (same secret, same algorithm), the token is not
expired (`exp <= now` raises `ExpiredSignatureError`), and issuer and
audience match; every failure is the uniform `InvalidTokenError`,
i.e. `none`. -/
def jwtDecode (token : SignedToken) (secret alg aud iss : String)
    (now : Nat) : Option Claims :=
  if token.secret == secret && token.alg == alg
      && decide (now < token.claims.exp)
      && token.claims.iss == iss && token.claims.aud == aud then
    some token.claims
  else none

/-- Python truthiness of the `expires_delta: timedelta | None` argument:
`if expires_delta:` falls back to the default both for `None` and for a
zero delta. -/
def timedeltaOrDefault (expires_delta : Option Nat) (dflt : Nat) : Nat :=
  match expires_delta with
  | some d => if d == 0 then dflt else d
  | none => dflt

/-- `src/services/auth.py` `create_access_token` for `data =
{"sub": user_uuid}`: claims `sub`, `type=ACCESS`, `exp`, `iat`, `iss`,
`aud` (no `jti`), signed with `SECRET_KEY`. -/
def create_access_token (cfg : Config) (sub : String)
    (expires_delta : Option Nat) (now : Nat) : SignedToken :=
  let expire := now + timedeltaOrDefault expires_delta
    (cfg.ACCESS_TOKEN_EXPIRE_MINUTES * 60)
  { claims :=
      { sub := some sub, type := some TokenType.access, jti := none,
        exp := expire, iat := now,
        iss := cfg.JWT_ISSUER, aud := cfg.JWT_AUDIENCE },
    alg := cfg.ALGORITHM, secret := cfg.SECRET_KEY }

/-- `src/services/auth.py` `create_refresh_token` for `data =
{"sub": user_uuid}`: a fresh `jti` (the `uuid.uuid4()` draw is passed in
as `jti`), claims `sub`, `type=REFRESH`, `jti`, `exp`, `iat`, `iss`,
`aud`, signed with `REFRESH_SECRET_KEY`; returns
`(encoded_jwt, jti, expire)`. -/
def create_refresh_token (cfg : Config) (sub : String)
    (expires_delta : Option Nat) (jti : String) (now : Nat) :
    SignedToken × String × Nat :=
  let expire := now + timedeltaOrDefault expires_delta
    (cfg.REFRESH_TOKEN_EXPIRE_DAYS * 86400)
  ({ claims :=
      { sub := some sub, type := some TokenType.refresh, jti := some jti,
        exp := expire, iat := now,
        iss := cfg.JWT_ISSUER, aud := cfg.JWT_AUDIENCE },
     alg := cfg.ALGORITHM, secret := cfg.REFRESH_SECRET_KEY },
   jti, expire)

/-- `src/services/auth.py` `verify_refresh_token`: decode under the
refresh secret, then check type claim, presence of non-empty `sub` and
`jti`, a valid (not revoked, unexpired) ledger row for the `jti`, row
ownership, token-hash match, and an existing enabled user; every failure
is `none`. -/
def verify_refresh_token (cfg : Config) (users : List UserInDB)
    (db : Ledger) (token : SignedToken) (now : Nat) :
    Option (User × String) := do
  let payload ← jwtDecode token cfg.REFRESH_SECRET_KEY cfg.ALGORITHM
    cfg.JWT_AUDIENCE cfg.JWT_ISSUER now
  if payload.type ≠ some TokenType.refresh then none
  else do
    let user_uuid ← payload.sub
    let jti ← payload.jti
    if user_uuid == "" || jti == "" then none
    else do
      let token_record ←
        RefreshTokenRepository.get_valid_token_by_jti db jti now
      if token_record.user_uuid ≠ user_uuid then none
      else if token_record.token_hash ≠ hash_token token then none
      else do
        let user ← get_user_by_uuid users user_uuid
        if user.disabled then none else some (user, jti)

/-- `src/services/auth.py` `create_and_store_tokens`: count the user's
active rows; if the count reaches `MAX_ACTIVE_TOKENS_PER_USER`, evict
via `revoke_oldest_tokens`; mint the access and refresh tokens; store
the hash of the refresh token in a new ledger row.  The `uuid4` draw for
the new token's `jti` is passed in as `jti`. -/
def create_and_store_tokens (cfg : Config) (db : Ledger)
    (user_uuid : String) (access_expires refresh_expires : Option Nat)
    (jti : String) (now : Nat) : (SignedToken × SignedToken) × Ledger :=
  let active_count :=
    RefreshTokenRepository.count_active_tokens_for_user db user_uuid now
  let db1 :=
    if active_count ≥ cfg.MAX_ACTIVE_TOKENS_PER_USER then
      (RefreshTokenRepository.revoke_oldest_tokens db user_uuid now).2
    else db
  let access_token := create_access_token cfg user_uuid access_expires now
  let minted := create_refresh_token cfg user_uuid refresh_expires jti now
  let token_hash := hash_token minted.1
  let db2 := (RefreshTokenRepository.create db1 minted.2.1 token_hash
    user_uuid minted.2.2 now).2
  ((access_token, minted.1), db2)

/-- `src/routers/auth.py` `refresh_token_endpoint`: verify the presented
refresh token (uniform 401 = `none` on failure), revoke the old `jti`,
then mint and store a new pair with the endpoint's expiry deltas
(`timedelta(minutes=ACCESS_TOKEN_EXPIRE_MINUTES)`,
`timedelta(days=REFRESH_TOKEN_EXPIRE_DAYS)`). -/
def refresh_token_endpoint (cfg : Config) (users : List UserInDB)
    (db : Ledger) (token : SignedToken) (newJti : String) (now : Nat) :
    Option (SignedToken × SignedToken) × Ledger :=
  match verify_refresh_token cfg users db token now with
  | none => (none, db)
  | some (user, old_jti) =>
    let db1 := (RefreshTokenRepository.revoke_by_jti db old_jti now).2
    let r := create_and_store_tokens cfg db1 user.uuid
      (some (cfg.ACCESS_TOKEN_EXPIRE_MINUTES * 60))
      (some (cfg.REFRESH_TOKEN_EXPIRE_DAYS * 86400)) newJti now
    (some r.1, r.2)

/-- Hex digit test used by the UUID format check. -/
def isHexDigit (c : Char) : Bool :=
  c.isDigit || (('a' ≤ c) && (c ≤ 'f')) || (('A' ≤ c) && (c ≤ 'F'))

/-- `uuid.UUID(uuid_str)` parse success, modelled as the canonical
8-4-4-4-12 hyphenated hex format (the Python parser accepts some further
spellings; the claims only need that canonically formed uuids pass and
that a format check runs). -/
def isValidUUID (s : String) : Bool :=
  let cs := s.toList
  cs.length == 36 &&
    (List.range 36).all (fun i =>
      let c := cs.getD i ' '
      if i == 8 || i == 13 || i == 18 || i == 23 then c == '-'
      else isHexDigit c)

/-- `src/utils/dependencies.py` `get_current_user` — the access-token
verification path: decode under `SECRET_KEY` with the hardcoded audience
`"hermes-mobile-app"` and issuer `"hermes-api"`, require a `sub` that
parses as a UUID, and resolve the user; every failure is the uniform
401 = `none`.  The payload's `type` claim is never read here. -/
def get_current_user (cfg : Config) (users : List UserInDB)
    (token : SignedToken) (now : Nat) : Option User :=
  match jwtDecode token cfg.SECRET_KEY cfg.ALGORITHM
      "hermes-mobile-app" "hermes-api" now with
  | none => none
  | some payload =>
    match payload.sub with
    | none => none
    | some uuid_str =>
      if !isValidUUID uuid_str then none
      else get_user_by_uuid users uuid_str

/-- `src/utils/validators.py` `normalize_username`: lowercase, strip,
then reject empty, too short, too long, or embedded-space usernames
(`ValueError` = `Except.error`). -/
def normalize_username (value : String) : Except String String :=
  let v := value.toLower.trim
  if v.length == 0 then Except.error "Username cannot be empty"
  else if v.length < 3 then Except.error "Username must be at least 3 characters"
  else if v.length > 50 then Except.error "Username must be at most 50 characters"
  else if v.contains ' ' then Except.error "Username cannot contain spaces"
  else Except.ok v

/-- The fixed precomputed argon2id dummy hash of
`src/services/auth.py` `authenticate_user`. -/
def DUMMY_HASH : String :=
  "$argon2id$v=19$m=65536,t=3,p=4$owhEzyl8AD7mt/kgiE9Teg$yr8YHFdTrbvr1TdNYTU0I3bTjKw6BPN4FKqkHPNOxpo"

/-- `src/services/auth.py` `authenticate_user`, parameterised by the
password-verification oracle `vp` (`verify_password` of
`src/utils/security.py`) and instrumented: the second component is the
list of `(plain_password, hashed_password)` argument pairs passed to
`vp`, in order.  Normalization failure (`ValueError`) is caught and
treated as "no user"; the comparand falls back to `DUMMY_HASH` when no
user was found; verification always runs; failure paths (wrong password,
absent user, disabled user) all return `none`. -/
def authenticate_user (vp : String → String → Bool)
    (users : List UserInDB) (username password : String) :
    Option User × List (String × String) :=
  let user_with_password : Option UserInDB :=
    match normalize_username username with
    | Except.error _ => none
    | Except.ok normalized_username => get_user users normalized_username
  let hashed_password :=
    match user_with_password with
    | some u => u.hashed_password
    | none => DUMMY_HASH
  let calls := [(password, hashed_password)]
  if !vp password hashed_password then (none, calls)
  else
    match user_with_password with
    | none => (none, calls)
    | some u =>
      if u.disabled then (none, calls)
      else (some (toPublicUser u), calls)

/-- `src/config.py` `get_required_env_var`: raises (`Except.error`) when
the variable is unset or empty (`if not value`). -/
def get_required_env_var (env : String → Option String)
    (var_name : String) : Except String String :=
  match env var_name with
  | none => Except.error "Configuration error - check logs"
  | some v =>
    if v == "" then Except.error "Configuration error - check logs"
    else Except.ok v

/-- Decimal-digit parse for `pyInt`. -/
def parseNatChars : List Char → Nat → Option Nat
  | [], acc => some acc
  | c :: cs, acc =>
    if c.isDigit then parseNatChars cs (acc * 10 + (c.toNat - 48))
    else none

/-- Python `int(...)` on an environment string, modelled on the
non-negative decimal literals the configuration uses (sign and
surrounding whitespace omitted): parse failure raises, which makes
module import (configuration loading) fail. -/
def pyInt (s : String) : Except String Nat :=
  match s.toList with
  | [] => Except.error "invalid literal for int()"
  | cs =>
    match parseNatChars cs 0 with
    | some n => Except.ok n
    | none => Except.error "invalid literal for int()"

/-- The values bound at import time by `src/config.py`. -/
structure LoadedConfig where
  DATABASE_URL : String
  ENV : String
  SECRET_KEY : String
  REFRESH_SECRET_KEY : String
  ALGORITHM : String
  ACCESS_TOKEN_EXPIRE_MINUTES : Nat
  REFRESH_TOKEN_EXPIRE_DAYS : Nat
  MAX_ACTIVE_TOKENS_PER_USER : Nat
  JWT_ISSUER : String
  JWT_AUDIENCE : String
deriving DecidableEq, Repr

/-- `src/config.py` module load over an environment `env` (the result of
`load_dotenv` merged into the process environment): each
`get_required_env_var` raises on absence; `ENV`, `JWT_ISSUER` and
`JWT_AUDIENCE` instead use `os.getenv` with a default. -/
def loadConfig (env : String → Option String) :
    Except String LoadedConfig := do
  let database_url ← get_required_env_var env "DATABASE_URL"
  let envName := (env "ENV").getD "development"
  let secret_key ← get_required_env_var env "SECRET_KEY"
  let refresh_secret_key ← get_required_env_var env "REFRESH_SECRET_KEY"
  let algorithm ← get_required_env_var env "ALGORITHM"
  let access_minutes ← get_required_env_var env "ACCESS_TOKEN_EXPIRE_MINUTES"
  let access_token_expire_minutes ← pyInt access_minutes
  let refresh_days ← get_required_env_var env "REFRESH_TOKEN_EXPIRE_DAYS"
  let refresh_token_expire_days ← pyInt refresh_days
  let max_active ← get_required_env_var env "MAX_ACTIVE_TOKENS_PER_USER"
  let max_active_tokens_per_user ← pyInt max_active
  let jwt_issuer := (env "JWT_ISSUER").getD "hermes-api"
  let jwt_audience := (env "JWT_AUDIENCE").getD "hermes-mobile-app"
  Except.ok
    { DATABASE_URL := database_url, ENV := envName,
      SECRET_KEY := secret_key,
      REFRESH_SECRET_KEY := refresh_secret_key,
      ALGORITHM := algorithm,
      ACCESS_TOKEN_EXPIRE_MINUTES := access_token_expire_minutes,
      REFRESH_TOKEN_EXPIRE_DAYS := refresh_token_expire_days,
      MAX_ACTIVE_TOKENS_PER_USER := max_active_tokens_per_user,
      JWT_ISSUER := jwt_issuer, JWT_AUDIENCE := jwt_audience }

/-- The mutating ledger operations of
`src/repositories/refresh_token_repository.py`, as reified events, each
carrying the clock value at which it runs.  `revokeOp` is the bare
`revoke` applied to the row handle with the given `jti`. -/
inductive LedgerOp where
  | createOp (jti : String) (token_hash : TokenHash) (user_uuid : String)
      (expires_at : Nat) (now : Nat)
  | revokeOp (jti : String) (now : Nat)
  | revokeByJtiOp (jti : String) (now : Nat)
  | revokeAllOp (user_uuid : String) (now : Nat)
  | deleteExpiredOp (now : Nat)
  | revokeOldestOp (user_uuid : String) (now : Nat)
deriving DecidableEq, Repr

/-- Run one ledger operation (return values discarded). -/
def applyOp (db : Ledger) : LedgerOp → Ledger
  | .createOp jti h uuid exp now =>
    (RefreshTokenRepository.create db jti h uuid exp now).2
  | .revokeOp jti now =>
    db.map (fun r =>
      if r.jti == jti then RefreshTokenRepository.revokeRecord r now else r)
  | .revokeByJtiOp jti now =>
    (RefreshTokenRepository.revoke_by_jti db jti now).2
  | .revokeAllOp uuid now =>
    (RefreshTokenRepository.revoke_all_for_user db uuid now).2
  | .deleteExpiredOp now =>
    (RefreshTokenRepository.delete_expired_tokens db now).2
  | .revokeOldestOp uuid now =>
    (RefreshTokenRepository.revoke_oldest_tokens db uuid now).2

/-- Run a sequence of ledger operations, oldest first. -/
def applyOps (db : Ledger) (ops : List LedgerOp) : Ledger :=
  ops.foldl applyOp db

/-- A database `INSERT` that the unique index on `jti` admits and whose
`jti` is a fresh `uuid4` draw: a `createOp` never reuses the `jti` `j`.
Non-create operations are unrestricted. -/
def opAvoids (j : String) : LedgerOp → Prop
  | .createOp jti _ _ _ _ => jti ≠ j
  | _ => True

instance (j : String) (op : LedgerOp) : Decidable (opAvoids j op) := by
  cases op <;> simp [opAvoids] <;> infer_instance

/-- The row inserted by a `createOp` (and `none` for every other
operation). -/
def createdRow : LedgerOp → Option RefreshTokenDB
  | .createOp jti h uuid exp now =>
    some { jti := jti, token_hash := h, user_uuid := uuid,
           expires_at := exp, created_at := now,
           revoked := false, revoked_at := none }
  | _ => none

/-- Discriminates the bare `revoke` event (applied to a row handle with
no not-revoked guard) from the guarded operations. -/
def isBareRevoke : LedgerOp → Bool
  | .revokeOp _ _ => true
  | _ => false

/-- The `jti`s of the table are pairwise distinct (the unique index on
`refresh_tokens.jti`). -/
def NodupJti (db : Ledger) : Prop :=
  (db.map RefreshTokenDB.jti).Nodup

/-- Every row of the table carrying this `jti` is revoked. -/
def JtiRevoked (j : String) (db : Ledger) : Prop :=
  ∀ r ∈ db, r.jti = j → r.revoked = true

namespace RefreshTokenRepository

theorem oldestIdx_eq_none {p : RefreshTokenDB → Bool} :
    ∀ (db : Ledger) (i : Nat),
      oldestIdx p db i = none ↔ ∀ r ∈ db, p r = false := by
  intro db
  induction db with
  | nil => intro i; simp [oldestIdx]
  | cons r rs ih =>
    intro i
    simp only [oldestIdx]
    cases h : oldestIdx p rs (i + 1) with
    | none =>
      have hrs := (ih (i + 1)).1 h
      constructor
      · intro hnone s hs
        rcases List.mem_cons.1 hs with rfl | hmem
        · by_contra hp
          simp [eq_true_of_ne_false hp] at hnone
        · exact hrs s hmem
      · intro hall
        simp [hall r (List.mem_cons_self r rs)]
    | some jk =>
      constructor
      · intro hnone
        exfalso
        rcases jk with ⟨j, s⟩
        by_cases hp : p r = true <;> simp [hp] at hnone
        split at hnone <;> simp at hnone
      · intro hall
        exfalso
        have : oldestIdx p rs (i + 1) = none :=
          (ih (i + 1)).2 (fun s hs => hall s (List.mem_cons_of_mem r hs))
        rw [this] at h
        exact Option.noConfusion h

theorem oldestIdx_eq_some {p : RefreshTokenDB → Bool} :
    ∀ (db : Ledger) (i k : Nat) (r : RefreshTokenDB),
      oldestIdx p db i = some (k, r) →
      i ≤ k ∧ db.get? (k - i) = some r ∧ p r = true ∧
        ∀ s ∈ db, p s = true → r.created_at ≤ s.created_at := by
  intro db
  induction db with
  | nil => intro i k r h; simp [oldestIdx] at h
  | cons x xs ih =>
    intro i k r h
    simp only [oldestIdx] at h
    cases hrec : oldestIdx p xs (i + 1) with
    | none =>
      rw [hrec] at h
      have hall := (oldestIdx_eq_none xs (i + 1)).1 hrec
      by_cases hp : p x = true
      · simp [hp] at h
        obtain ⟨rfl, rfl⟩ := h
        refine ⟨le_refl i, by simp, hp, ?_⟩
        intro s hs hps
        rcases List.mem_cons.1 hs with rfl | hmem
        · exact le_refl _
        · rw [hall s hmem] at hps; exact absurd hps (by simp)
      · simp [hp] at h
    | some jk =>
      rcases jk with ⟨j, s⟩
      rw [hrec] at h
      obtain ⟨hij, hget, hps, hmin⟩ := ih (i + 1) j s hrec
      by_cases hp : p x = true
      · simp only [hp, if_true] at h
        by_cases hlt : s.created_at < x.created_at
        · simp only [hlt, if_true] at h
          obtain ⟨rfl, rfl⟩ := h
          refine ⟨le_trans (Nat.le_succ i) hij, ?_, hps, ?_⟩
          · have h1 : 1 ≤ k - i := by omega
            have : k - i = (k - (i + 1)) + 1 := by omega
            rw [this]
            simpa using hget
          · intro t ht hpt
            rcases List.mem_cons.1 ht with rfl | hmem
            · exact le_of_lt hlt
            · exact hmin t hmem hpt
        · simp only [hlt, if_false] at h
          obtain ⟨rfl, rfl⟩ := h
          refine ⟨le_refl i, by simp, hp, ?_⟩
          intro t ht hpt
          rcases List.mem_cons.1 ht with rfl | hmem
          · exact le_refl _
          · exact le_trans (Nat.le_of_not_lt hlt) (hmin t hmem hpt)
      · simp only [hp, if_false] at h
        obtain ⟨rfl, rfl⟩ := h
        refine ⟨le_trans (Nat.le_succ i) hij, ?_, hps, ?_⟩
        · have : k - i = (k - (i + 1)) + 1 := by omega
          rw [this]
          simpa using hget
        · intro t ht hpt
          rcases List.mem_cons.1 ht with rfl | hmem
          · exact absurd hpt hp
          · exact hmin t hmem hpt

end RefreshTokenRepository

namespace RefreshTokenRepository

theorem mem_revoke_by_jti_snd :
    ∀ (db : Ledger) (j : String) (n : Nat) (r' : RefreshTokenDB),
      r' ∈ (revoke_by_jti db j n).2 → r' ∈ db ∨ r'.revoked = true := by
  intro db j n
  induction db with
  | nil => intro r' h; simp [revoke_by_jti] at h
  | cons x xs ih =>
    intro r' h
    simp only [revoke_by_jti] at h
    by_cases hx : (x.jti == j) = true
    · simp only [hx, if_true] at h
      by_cases hr : x.revoked = true
      · simp only [hr, if_true] at h
        exact Or.inl h
      · simp only [hr, if_false] at h
        rcases List.mem_cons.1 h with rfl | hmem
        · exact Or.inr rfl
        · exact Or.inl (List.mem_cons_of_mem x hmem)
    · simp only [hx, if_false] at h
      rcases List.mem_cons.1 h with rfl | hmem
      · exact Or.inl (List.mem_cons_self _ _)
      · rcases ih r' hmem with h1 | h2
        · exact Or.inl (List.mem_cons_of_mem x h1)
        · exact Or.inr h2

theorem mem_revoke_all_snd :
    ∀ (db : Ledger) (u : String) (n : Nat) (r' : RefreshTokenDB),
      r' ∈ (revoke_all_for_user db u n).2 → r' ∈ db ∨ r'.revoked = true := by
  intro db u n
  induction db with
  | nil => intro r' h; simp [revoke_all_for_user] at h
  | cons x xs ih =>
    intro r' h
    simp only [revoke_all_for_user] at h
    by_cases hx : (x.user_uuid == u && !x.revoked) = true
    · simp only [hx, if_true] at h
      rcases List.mem_cons.1 h with rfl | hmem
      · exact Or.inr rfl
      · rcases ih r' hmem with h1 | h2
        · exact Or.inl (List.mem_cons_of_mem x h1)
        · exact Or.inr h2
    · simp only [hx, if_false] at h
      rcases List.mem_cons.1 h with rfl | hmem
      · exact Or.inl (List.mem_cons_self _ _)
      · rcases ih r' hmem with h1 | h2
        · exact Or.inl (List.mem_cons_of_mem x h1)
        · exact Or.inr h2

theorem mem_revoke_oldest_snd (db : Ledger) (u : String) (n : Nat)
    (r' : RefreshTokenDB) (h : r' ∈ (revoke_oldest_tokens db u n).2) :
    r' ∈ db ∨ r'.revoked = true := by
  unfold revoke_oldest_tokens at h
  cases hidx : oldestIdx (isUnrevokedFor u) db 0 with
  | none => rw [hidx] at h; exact Or.inl h
  | some ir =>
    rcases ir with ⟨i, r⟩
    rw [hidx] at h
    rcases List.mem_or_eq_of_mem_set h with hmem | rfl
    · exact Or.inl hmem
    · exact Or.inr rfl

end RefreshTokenRepository

/-- Every row of the table after one operation is either a row of the
table before, or is revoked (the operations only set `revoked := true`),
or is the row freshly inserted by a `createOp`. -/
theorem mem_applyOp (db : Ledger) (op : LedgerOp) (r' : RefreshTokenDB)
    (h : r' ∈ applyOp db op) :
    r' ∈ db ∨ r'.revoked = true ∨ createdRow op = some r' := by
  cases op with
  | createOp jti hsh uuid exp now =>
    simp only [applyOp, RefreshTokenRepository.create] at h
    rcases List.mem_append.1 h with hmem | hnew
    · exact Or.inl hmem
    · simp at hnew
      exact Or.inr (Or.inr (by simp [createdRow, hnew]))
  | revokeOp jti now =>
    simp only [applyOp] at h
    rcases List.mem_map.1 h with ⟨r, hr, hfr⟩
    by_cases hj : (r.jti == jti) = true
    · rw [if_pos hj] at hfr
      exact Or.inr (Or.inl (hfr ▸ rfl))
    · rw [if_neg hj] at hfr
      exact Or.inl (hfr ▸ hr)
  | revokeByJtiOp jti now =>
    rcases RefreshTokenRepository.mem_revoke_by_jti_snd db jti now r' h with h1 | h2
    · exact Or.inl h1
    · exact Or.inr (Or.inl h2)
  | revokeAllOp u now =>
    rcases RefreshTokenRepository.mem_revoke_all_snd db u now r' h with h1 | h2
    · exact Or.inl h1
    · exact Or.inr (Or.inl h2)
  | deleteExpiredOp now =>
    simp only [applyOp, RefreshTokenRepository.delete_expired_tokens] at h
    exact Or.inl (List.mem_of_mem_filter h)
  | revokeOldestOp u now =>
    rcases RefreshTokenRepository.mem_revoke_oldest_snd db u now r' h with h1 | h2
    · exact Or.inl h1
    · exact Or.inr (Or.inl h2)

namespace RefreshTokenRepository

theorem isActiveFor_revokeRecord (u : String) (now n : Nat)
    (r : RefreshTokenDB) : isActiveFor u now (revokeRecord r n) = false := by
  simp [isActiveFor, revokeRecord]

theorem get_valid_none_of_jtiRevoked (db : Ledger) (j : String) (now : Nat)
    (h : JtiRevoked j db) : get_valid_token_by_jti db j now = none := by
  apply List.find?_eq_none.2
  intro r hr
  simp only [Bool.and_eq_true, beq_iff_eq, Bool.not_eq_true',
    decide_eq_true_eq, not_and]
  intro hj hrv
  have h1 := h r hr hj.1
  rw [hj.2] at h1
  exact Bool.noConfusion h1

theorem revoke_by_jti_jtiRevoked :
    ∀ (db : Ledger) (j : String) (now : Nat), NodupJti db →
      JtiRevoked j (revoke_by_jti db j now).2 := by
  intro db
  induction db with
  | nil => intro j now _ r hr; simp [revoke_by_jti] at hr
  | cons x xs ih =>
    intro j now hnodup
    have hnd : NodupJti xs := (List.nodup_cons.1 hnodup).2
    have hnotin : x.jti ∉ xs.map RefreshTokenDB.jti :=
      (List.nodup_cons.1 hnodup).1
    intro r hr hj
    simp only [revoke_by_jti] at hr
    by_cases hx : (x.jti == j) = true
    · have hxj : x.jti = j := beq_iff_eq.1 hx
      by_cases hrev : x.revoked = true
      · simp only [hx, hrev, if_true] at hr
        rcases List.mem_cons.1 hr with rfl | hmem
        · exact hrev
        · exfalso
          exact hnotin (hxj ▸ hj ▸ List.mem_map_of_mem RefreshTokenDB.jti hmem)
      · simp only [hx, hrev, if_true, if_false] at hr
        rcases List.mem_cons.1 hr with rfl | hmem
        · rfl
        · exfalso
          exact hnotin (hxj ▸ hj ▸ List.mem_map_of_mem RefreshTokenDB.jti hmem)
    · simp only [hx, if_false] at hr
      rcases List.mem_cons.1 hr with rfl | hmem
      · exact absurd hj (by simpa using hx)
      · exact ih j now hnd r hmem hj

end RefreshTokenRepository

theorem jwtDecode_eq_some {t : SignedToken} {secret alg aud iss : String}
    {now : Nat} {c : Claims}
    (h : jwtDecode t secret alg aud iss now = some c) :
    c = t.claims ∧ t.secret = secret ∧ t.alg = alg ∧
      now < t.claims.exp ∧ t.claims.iss = iss ∧ t.claims.aud = aud := by
  unfold jwtDecode at h
  split at h
  · rename_i hcond
    simp only [Bool.and_eq_true, beq_iff_eq, decide_eq_true_eq] at hcond
    cases h
    exact ⟨rfl, hcond.1.1.1.1, hcond.1.1.1.2, hcond.1.1.2, hcond.1.2, hcond.2⟩
  · exact Option.noConfusion h

theorem verify_some_jti {cfg : Config} {users : List UserInDB} {db : Ledger}
    {token : SignedToken} {now : Nat} {u : User} {jt : String}
    (h : verify_refresh_token cfg users db token now = some (u, jt)) :
    token.claims.jti = some jt := by
  unfold verify_refresh_token at h
  simp only [bind, Option.bind_eq_some] at h
  obtain ⟨payload, hd, h⟩ := h
  obtain ⟨rfl, -⟩ := jwtDecode_eq_some hd
  split at h
  · exact Option.noConfusion h
  · simp only [bind, Option.bind_eq_some] at h
    obtain ⟨s, hsub, j, hjti, h⟩ := h
    split at h
    · exact Option.noConfusion h
    · simp only [bind, Option.bind_eq_some] at h
      obtain ⟨rec, hrec, h⟩ := h
      split at h
      · exact Option.noConfusion h
      · split at h
        · exact Option.noConfusion h
        · simp only [bind, Option.bind_eq_some] at h
          obtain ⟨user, huser, h⟩ := h
          split at h
          · exact Option.noConfusion h
          · cases h
            exact hjti

theorem verify_none_of_jtiRevoked {cfg : Config} {users : List UserInDB}
    {db : Ledger} {token : SignedToken} {now : Nat} {j : String}
    (hrev : JtiRevoked j db) (hjti : token.claims.jti = some j) :
    verify_refresh_token cfg users db token now = none := by
  unfold verify_refresh_token
  cases hd : jwtDecode token cfg.REFRESH_SECRET_KEY cfg.ALGORITHM
      cfg.JWT_AUDIENCE cfg.JWT_ISSUER now with
  | none => rfl
  | some payload =>
    obtain ⟨rfl, -⟩ := jwtDecode_eq_some hd
    simp only [bind, Option.some_bind]
    split
    · rfl
    · cases hsub : token.claims.sub with
      | none => rfl
      | some s =>
        simp only [bind, Option.some_bind]
        rw [hjti]
        simp only [Option.some_bind]
        split
        · rfl
        · rw [RefreshTokenRepository.get_valid_none_of_jtiRevoked db j now hrev]
          rfl

theorem jtiRevoked_create_and_store (cfg : Config) (db : Ledger)
    (u : String) (a b : Option Nat) (newJti : String) (now : Nat)
    (j : String) (h : JtiRevoked j db) (hne : newJti ≠ j) :
    JtiRevoked j (create_and_store_tokens cfg db u a b newJti now).2 := by
  unfold create_and_store_tokens
  intro r' hr'
  simp only [RefreshTokenRepository.create, create_refresh_token] at hr'
  rcases List.mem_append.1 hr' with hmem | hnew
  · by_cases hcap : RefreshTokenRepository.count_active_tokens_for_user db u
        now ≥ cfg.MAX_ACTIVE_TOKENS_PER_USER
    · rw [if_pos hcap] at hmem
      intro hj
      rcases RefreshTokenRepository.mem_revoke_oldest_snd db u now r' hmem
        with h1 | h2
      · exact h r' h1 hj
      · exact h2
    · rw [if_neg hcap] at hmem
      exact h r' hmem
  · simp at hnew
    intro hj
    rw [hnew] at hj
    exact absurd hj hne

theorem jtiRevoked_applyOp (j : String) (db : Ledger) (op : LedgerOp)
    (h : JtiRevoked j db) (hop : opAvoids j op) :
    JtiRevoked j (applyOp db op) := by
  intro r' hr' hj
  rcases mem_applyOp db op r' hr' with h1 | h2 | h3
  · exact h r' h1 hj
  · exact h2
  · cases op with
    | createOp jti hsh uuid exp now =>
      simp only [createdRow, Option.some.injEq] at h3
      rw [← h3] at hj
      simp only [opAvoids] at hop
      exact absurd hj hop
    | revokeOp _ _ => simp [createdRow] at h3
    | revokeByJtiOp _ _ => simp [createdRow] at h3
    | revokeAllOp _ _ => simp [createdRow] at h3
    | deleteExpiredOp _ => simp [createdRow] at h3
    | revokeOldestOp _ _ => simp [createdRow] at h3

theorem jtiRevoked_applyOps (j : String) :
    ∀ (ops : List LedgerOp) (db : Ledger), JtiRevoked j db →
      (∀ op ∈ ops, opAvoids j op) → JtiRevoked j (applyOps db ops) := by
  intro ops
  induction ops with
  | nil => intro db h _; exact h
  | cons op rest ih =>
    intro db h hops
    have h1 : JtiRevoked j (applyOp db op) :=
      jtiRevoked_applyOp j db op h (hops op (List.mem_cons_self _ _))
    exact ih (applyOp db op) h1
      (fun o ho => hops o (List.mem_cons_of_mem op ho))

/-- **C1.** Refresh tokens are single-use: when a presentation of a
refresh token to the refresh endpoint succeeds, every later presentation
of the same token string fails with the uniform verification failure and
leaves the ledger unchanged — at any later time (in particular before the
token's expiry), after any interleaved sequence of ledger operations
whose inserts use fresh `jti`s, with any user table and any fresh `jti`
draw for the would-be replacement token.  Hypotheses: the unique index
on `jti` holds of the starting table (`NodupJti`), and the `uuid4` draws
(`newJti`, the inserts in `ops`) do not collide with the presented
token's `jti` `j`. -/
theorem refresh_token_single_use (cfg : Config)
    (users users2 : List UserInDB) (db : Ledger) (token : SignedToken)
    (newJti newJti2 : String) (now now2 : Nat)
    (pair : SignedToken × SignedToken) (db1 : Ledger)
    (ops : List LedgerOp) (j : String)
    (hj : token.claims.jti = some j)
    (hnodup : NodupJti db)
    (hfresh : newJti ≠ j)
    (hsucc : refresh_token_endpoint cfg users db token newJti now =
      (some pair, db1))
    (hops : ∀ op ∈ ops, opAvoids j op) :
    refresh_token_endpoint cfg users2 (applyOps db1 ops) token newJti2 now2 =
      (none, applyOps db1 ops) := by
  have hrev1 : JtiRevoked j db1 := by
    unfold refresh_token_endpoint at hsucc
    cases hv : verify_refresh_token cfg users db token now with
    | none => rw [hv] at hsucc; simp at hsucc
    | some p =>
      rcases p with ⟨user, old_jti⟩
      rw [hv] at hsucc
      have hjt : token.claims.jti = some old_jti := verify_some_jti hv
      rw [hj] at hjt
      have : old_jti = j := (Option.some.inj hjt).symm
      subst this
      simp only at hsucc
      have hdb1 : db1 = (create_and_store_tokens cfg
          (RefreshTokenRepository.revoke_by_jti db old_jti now).2 user.uuid
          (some (cfg.ACCESS_TOKEN_EXPIRE_MINUTES * 60))
          (some (cfg.REFRESH_TOKEN_EXPIRE_DAYS * 86400)) newJti now).2 := by
        have := congrArg Prod.snd hsucc
        simpa using this.symm
      rw [hdb1]
      exact jtiRevoked_create_and_store cfg _ user.uuid _ _ newJti now
        old_jti
        (RefreshTokenRepository.revoke_by_jti_jtiRevoked db old_jti now hnodup)
        hfresh
  have hrev2 : JtiRevoked j (applyOps db1 ops) :=
    jtiRevoked_applyOps j ops db1 hrev1 hops
  unfold refresh_token_endpoint
  rw [verify_none_of_jtiRevoked hrev2 hj]

/-- A concrete configuration for witness instances. -/
def sampleCfg : Config :=
  { SECRET_KEY := "access-secret", REFRESH_SECRET_KEY := "refresh-secret",
    ALGORITHM := "HS256", ACCESS_TOKEN_EXPIRE_MINUTES := 15,
    REFRESH_TOKEN_EXPIRE_DAYS := 7, MAX_ACTIVE_TOKENS_PER_USER := 3,
    JWT_ISSUER := "hermes-api", JWT_AUDIENCE := "hermes-mobile-app" }

/-- A canonical-form uuid string used by witness instances. -/
def sampleUuid : String := "123e4567-e89b-12d3-a456-426614174000"

/-- A concrete enabled user for witness instances. -/
def sampleUser : UserInDB :=
  { uuid := sampleUuid, username := "alice",
    hashed_password := "stored-argon2-hash", disabled := false }

/-- A refresh token minted for `sampleUser` at time 0, expiring at 100. -/
def c1Token : SignedToken :=
  (create_refresh_token sampleCfg sampleUuid (some 100) "jti-1" 0).1

/-- The ledger row stored for `c1Token`. -/
def c1Db : Ledger :=
  [{ jti := "jti-1", token_hash := hash_token c1Token,
     user_uuid := sampleUuid, expires_at := 100, created_at := 0,
     revoked := false, revoked_at := none }]

/-- The pair minted by the successful refresh of `c1Token` at time 10. -/
def c1Pair : SignedToken × SignedToken :=
  (create_access_token sampleCfg sampleUuid (some 900) 10,
   (create_refresh_token sampleCfg sampleUuid (some 604800) "jti-2" 10).1)

/-- The ledger produced by the successful refresh of `c1Token`. -/
def c1Db1 : Ledger :=
  (refresh_token_endpoint sampleCfg [sampleUser] c1Db c1Token "jti-2" 10).2

/-- Witness for C1 at a concrete successful refresh followed by an
expiry sweep: the replay at time 20 (well before the expiry 100) fails
and leaves the ledger unchanged. -/
theorem refresh_token_single_use_witness :
    refresh_token_endpoint sampleCfg [sampleUser]
        (applyOps c1Db1 [LedgerOp.deleteExpiredOp 5]) c1Token "jti-3" 20 =
      (none, applyOps c1Db1 [LedgerOp.deleteExpiredOp 5]) :=
  refresh_token_single_use sampleCfg [sampleUser] [sampleUser] c1Db c1Token
    "jti-2" "jti-3" 10 20 c1Pair c1Db1 [LedgerOp.deleteExpiredOp 5] "jti-1"
    (by decide)
    (by unfold NodupJti; decide)
    (by decide)
    (by decide)
    (by decide)

/-- An arbitrary token hash for witness rows. -/
def sampleHash : TokenHash :=
  hash_token
    { claims :=
        { sub := none, type := none, jti := none,
          exp := 0, iat := 0, iss := "", aud := "" },
      alg := "", secret := "" }

/-- **C7.** `revoke_by_jti` is idempotent: when the `jti` has no row, or
its first row is already revoked, it returns `False` and leaves the
ledger unchanged; the first revocation of an existing not-revoked row
returns `True` and stores the row with `revoked = True` and
`revoked_at = now`; and a second call on the resulting ledger always
returns `False` and changes nothing. -/
theorem revoke_by_jti_idempotent (db : Ledger) (jti : String)
    (now now2 : Nat) :
    (RefreshTokenRepository.get_by_jti db jti = none →
      RefreshTokenRepository.revoke_by_jti db jti now = (false, db)) ∧
    (∀ r, RefreshTokenRepository.get_by_jti db jti = some r →
      r.revoked = true →
      RefreshTokenRepository.revoke_by_jti db jti now = (false, db)) ∧
    (∀ r, RefreshTokenRepository.get_by_jti db jti = some r →
      r.revoked = false →
      (RefreshTokenRepository.revoke_by_jti db jti now).1 = true ∧
      RefreshTokenRepository.get_by_jti
          (RefreshTokenRepository.revoke_by_jti db jti now).2 jti =
        some (RefreshTokenRepository.revokeRecord r now)) ∧
    RefreshTokenRepository.revoke_by_jti
        (RefreshTokenRepository.revoke_by_jti db jti now).2 jti now2 =
      (false, (RefreshTokenRepository.revoke_by_jti db jti now).2) := by
  refine ⟨?_, ?_, ?_, ?_⟩
  · intro hnone
    induction db with
    | nil => rfl
    | cons x xs ih =>
      unfold RefreshTokenRepository.get_by_jti at hnone
      rw [List.find?_cons] at hnone
      cases hx : (x.jti == jti) with
      | true => rw [hx] at hnone; exact Option.noConfusion hnone
      | false =>
        rw [hx] at hnone
        have := ih hnone
        simp only [RefreshTokenRepository.revoke_by_jti, hx, if_false,
          Bool.false_eq_true]
        rw [this]
  · intro r hsome hrev
    induction db with
    | nil => exact Option.noConfusion hsome
    | cons x xs ih =>
      unfold RefreshTokenRepository.get_by_jti at hsome
      rw [List.find?_cons] at hsome
      cases hx : (x.jti == jti) with
      | true =>
        rw [hx] at hsome
        cases hsome
        simp only [RefreshTokenRepository.revoke_by_jti, hx, hrev, if_true]
      | false =>
        rw [hx] at hsome
        have := ih hsome
        simp only [RefreshTokenRepository.revoke_by_jti, hx, if_false,
          Bool.false_eq_true]
        rw [this]
  · intro r hsome hrev
    induction db with
    | nil => exact Option.noConfusion hsome
    | cons x xs ih =>
      unfold RefreshTokenRepository.get_by_jti at hsome
      rw [List.find?_cons] at hsome
      cases hx : (x.jti == jti) with
      | true =>
        rw [hx] at hsome
        cases hsome
        refine ⟨?_, ?_⟩
        · simp [RefreshTokenRepository.revoke_by_jti, hx, hrev]
        · simp [RefreshTokenRepository.revoke_by_jti,
            RefreshTokenRepository.get_by_jti,
            RefreshTokenRepository.revokeRecord, List.find?_cons, hx, hrev]
      | false =>
        rw [hx] at hsome
        obtain ⟨h1, h2⟩ := ih hsome
        simp only [RefreshTokenRepository.revoke_by_jti, hx, if_false,
          Bool.false_eq_true]
        refine ⟨h1, ?_⟩
        unfold RefreshTokenRepository.get_by_jti
        rw [List.find?_cons, hx]
        exact h2
  · induction db with
    | nil => rfl
    | cons x xs ih =>
      cases hx : (x.jti == jti) with
      | true =>
        cases hrev : x.revoked with
        | true =>
          simp only [RefreshTokenRepository.revoke_by_jti, hx, hrev, if_true]
        | false =>
          simp [RefreshTokenRepository.revoke_by_jti,
            RefreshTokenRepository.revokeRecord, hx, hrev]
      | false =>
        simp only [RefreshTokenRepository.revoke_by_jti, hx,
          Bool.false_eq_true, if_false]
        rw [ih]

/-- Row for the C7 witness. -/
def c7Db : Ledger :=
  [{ jti := "j", token_hash := sampleHash, user_uuid := "u",
     expires_at := 100, created_at := 0, revoked := false,
     revoked_at := none }]

/-- Witness for C7: a concrete first revocation succeeds and the second
returns `False` leaving the ledger unchanged. -/
theorem revoke_by_jti_idempotent_witness :
    (RefreshTokenRepository.revoke_by_jti c7Db "j" 5).1 = true ∧
    RefreshTokenRepository.revoke_by_jti
        (RefreshTokenRepository.revoke_by_jti c7Db "j" 5).2 "j" 6 =
      (false, (RefreshTokenRepository.revoke_by_jti c7Db "j" 5).2) :=
  ⟨((revoke_by_jti_idempotent c7Db "j" 5 6).2.2.1
      { jti := "j", token_hash := sampleHash, user_uuid := "u",
        expires_at := 100, created_at := 0, revoked := false,
        revoked_at := none } (by decide) (by decide)).1,
   (revoke_by_jti_idempotent c7Db "j" 5 6).2.2.2⟩

/-- **C8.** `delete_expired_tokens` deletes exactly the rows with
`expires_at` in the past — regardless of their revocation state — keeps
every other row, and returns the number of rows deleted; in the spec's
scenario (one expired-revoked, one expired-active, one live-active row)
it removes exactly the two expired rows, returning 2. -/
theorem delete_expired_tokens_spec (db : Ledger) (now : Nat) :
    ((RefreshTokenRepository.delete_expired_tokens db now).2.length +
        (RefreshTokenRepository.delete_expired_tokens db now).1 =
      db.length) ∧
    (∀ r ∈ (RefreshTokenRepository.delete_expired_tokens db now).2,
      ¬ r.expires_at < now) ∧
    (∀ r ∈ db, ¬ r.expires_at < now →
      r ∈ (RefreshTokenRepository.delete_expired_tokens db now).2) ∧
    (∀ r ∈ db, r.expires_at < now →
      r ∉ (RefreshTokenRepository.delete_expired_tokens db now).2) ∧
    (RefreshTokenRepository.delete_expired_tokens
        [{ jti := "j1", token_hash := sampleHash, user_uuid := "u",
           expires_at := 10, created_at := 0, revoked := true,
           revoked_at := some 5 },
         { jti := "j2", token_hash := sampleHash, user_uuid := "u",
           expires_at := 20, created_at := 0, revoked := false,
           revoked_at := none },
         { jti := "j3", token_hash := sampleHash, user_uuid := "u",
           expires_at := 100, created_at := 0, revoked := false,
           revoked_at := none }] 50 =
      (2, [{ jti := "j3", token_hash := sampleHash, user_uuid := "u",
             expires_at := 100, created_at := 0, revoked := false,
             revoked_at := none }])) := by
  refine ⟨?_, ?_, ?_, ?_, by decide⟩
  · simp only [RefreshTokenRepository.delete_expired_tokens]
    rw [Nat.add_comm]
    exact (List.length_eq_length_filter_add
      (fun r : RefreshTokenDB => decide (r.expires_at < now))).symm
  · intro r hr
    simp only [RefreshTokenRepository.delete_expired_tokens] at hr
    have := List.of_mem_filter hr
    simpa using this
  · intro r hr hexp
    simp only [RefreshTokenRepository.delete_expired_tokens]
    exact List.mem_filter.2 ⟨hr, by simpa using hexp⟩
  · intro r hr hexp hmem
    simp only [RefreshTokenRepository.delete_expired_tokens] at hmem
    have := List.of_mem_filter hmem
    simp only [Bool.not_eq_true', decide_eq_false_iff_not] at this
    exact this hexp

/-- Witness for C8: the membership conjuncts applied at the concrete
three-row scenario ledger. -/
theorem delete_expired_tokens_spec_witness :
    { jti := "j3", token_hash := sampleHash, user_uuid := "u",
      expires_at := 100, created_at := 0, revoked := false,
      revoked_at := none : RefreshTokenDB } ∈
      (RefreshTokenRepository.delete_expired_tokens
        [{ jti := "j2", token_hash := sampleHash, user_uuid := "u",
           expires_at := 20, created_at := 0, revoked := false,
           revoked_at := none },
         { jti := "j3", token_hash := sampleHash, user_uuid := "u",
           expires_at := 100, created_at := 0, revoked := false,
           revoked_at := none }] 50).2 :=
  (delete_expired_tokens_spec
    [{ jti := "j2", token_hash := sampleHash, user_uuid := "u",
       expires_at := 20, created_at := 0, revoked := false,
       revoked_at := none },
     { jti := "j3", token_hash := sampleHash, user_uuid := "u",
       expires_at := 100, created_at := 0, revoked := false,
       revoked_at := none }] 50).2.2.1
    { jti := "j3", token_hash := sampleHash, user_uuid := "u",
      expires_at := 100, created_at := 0, revoked := false,
      revoked_at := none }
    (by decide) (by decide)

theorem authenticate_user_calls (vp : String → String → Bool)
    (users : List UserInDB) (username password : String) :
    (authenticate_user vp users username password).2 =
      [(password,
        match (match normalize_username username with
          | Except.error _ => none
          | Except.ok nu => get_user users nu) with
        | some u => u.hashed_password
        | none => DUMMY_HASH)] := by
  unfold authenticate_user
  cases hn : normalize_username username with
  | error e =>
    cases hvp : vp password DUMMY_HASH <;> simp [hvp]
  | ok nu =>
    cases hg : get_user users nu with
    | none =>
      cases hvp : vp password DUMMY_HASH <;> simp [hvp, hg]
    | some u =>
      cases hvp : vp password u.hashed_password with
      | false => simp [hvp, hg]
      | true =>
        cases hd : u.disabled <;> simp [hvp, hd, hg]

/-- **C6.** `authenticate_user` executes exactly one call to the
password-verification primitive on every input — including when username
normalization fails or no user exists under the normalized username —
and on those user-absent paths the single call compares the presented
password against the fixed precomputed argon2id `DUMMY_HASH`, so no path
short-circuits before password verification. -/
theorem authenticate_user_single_verification (vp : String → String → Bool)
    (users : List UserInDB) (username password : String) :
    (authenticate_user vp users username password).2.length = 1 ∧
    (∀ pr ∈ (authenticate_user vp users username password).2,
      pr.1 = password) ∧
    ((∀ nu, normalize_username username = Except.ok nu →
        get_user users nu = none) →
      (authenticate_user vp users username password).2 =
        [(password, DUMMY_HASH)]) := by
  refine ⟨?_, ?_, ?_⟩
  · rw [authenticate_user_calls]; rfl
  · intro pr hpr
    rw [authenticate_user_calls] at hpr
    rcases List.mem_singleton.1 hpr with rfl
    rfl
  · intro h
    rw [authenticate_user_calls]
    cases hn : normalize_username username with
    | error e => rfl
    | ok nu => simp [h nu hn]

/-- Witness for C6: with an empty user table (so the lookup fails), the
single verification call runs against the dummy hash. -/
theorem authenticate_user_single_verification_witness :
    (authenticate_user (fun _ _ => false) [] "alice" "pw").2 =
      [("pw", DUMMY_HASH)] :=
  (authenticate_user_single_verification
    (fun _ _ => false) [] "alice" "pw").2.2 (fun _ _ => rfl)

/-- **C4.** Mint/verify round-trip and dual-secret separation: a refresh
token minted for any subject immediately verifies under the refresh
secret with claims carrying that subject and a present `jti`; and the
same raw token string always fails the access-token verification path
(`get_current_user`) — and indeed `jwt.decode` under the access secret
with any audience, issuer and clock — whenever the two secrets differ. -/
theorem refresh_mint_roundtrip_dual_secret (cfg : Config)
    (users : List UserInDB) (sub jti aud iss : String) (d now now2 : Nat)
    (hd : 0 < d) (hsec : cfg.SECRET_KEY ≠ cfg.REFRESH_SECRET_KEY) :
    (jwtDecode (create_refresh_token cfg sub (some d) jti now).1
        cfg.REFRESH_SECRET_KEY cfg.ALGORITHM cfg.JWT_AUDIENCE cfg.JWT_ISSUER
        now =
      some (create_refresh_token cfg sub (some d) jti now).1.claims) ∧
    ((create_refresh_token cfg sub (some d) jti now).1.claims.sub =
      some sub) ∧
    ((create_refresh_token cfg sub (some d) jti now).1.claims.jti =
      some jti) ∧
    (get_current_user cfg users
        (create_refresh_token cfg sub (some d) jti now).1 now2 = none) ∧
    (jwtDecode (create_refresh_token cfg sub (some d) jti now).1
        cfg.SECRET_KEY cfg.ALGORITHM aud iss now2 = none) := by
  have hd0 : (d == 0) = false := by
    simp only [beq_eq_false_iff_ne, ne_eq]
    omega
  have hne : (cfg.REFRESH_SECRET_KEY == cfg.SECRET_KEY) = false := by
    simp only [beq_eq_false_iff_ne, ne_eq]
    exact fun hcontra => hsec hcontra.symm
  have h1 : now < now + d := by omega
  refine ⟨?_, rfl, rfl, ?_, ?_⟩
  · simp [create_refresh_token, jwtDecode, timedeltaOrDefault, hd0, h1]
  · simp [get_current_user, jwtDecode, create_refresh_token, hne]
  · simp [jwtDecode, create_refresh_token, hne]

/-- Witness for C4 at the sample configuration (distinct secrets) and a
100-second expiry delta. -/
theorem refresh_mint_roundtrip_dual_secret_witness :
    (jwtDecode (create_refresh_token sampleCfg sampleUuid (some 100)
        "jti-w4" 0).1
        sampleCfg.REFRESH_SECRET_KEY sampleCfg.ALGORITHM
        sampleCfg.JWT_AUDIENCE sampleCfg.JWT_ISSUER 0 =
      some (create_refresh_token sampleCfg sampleUuid (some 100)
        "jti-w4" 0).1.claims) ∧
    (get_current_user sampleCfg [sampleUser]
        (create_refresh_token sampleCfg sampleUuid (some 100)
          "jti-w4" 0).1 0 = none) :=
  ⟨(refresh_mint_roundtrip_dual_secret sampleCfg [sampleUser] sampleUuid
      "jti-w4" "a" "i" 100 0 0 (by decide) (by decide)).1,
   (refresh_mint_roundtrip_dual_secret sampleCfg [sampleUser] sampleUuid
      "jti-w4" "a" "i" 100 0 0 (by decide) (by decide)).2.2.2.1⟩

/-- A token signed with the **access** secret but carrying
`type = refresh` and otherwise valid claims for `sampleUser`. -/
def c5Forged : SignedToken :=
  { claims :=
      { sub := some sampleUuid, type := some TokenType.refresh,
        jti := some "jti-f", exp := 100, iat := 0,
        iss := "hermes-api", aud := "hermes-mobile-app" },
    alg := "HS256", secret := "access-secret" }

/-- Counterexample to C5: a presented token whose `type` claim is
`refresh` (≠ the expected type `access`) is **accepted** by the access
verification path `get_current_user` — the access path never reads the
`type` claim, so the claimed type-equality check does not happen there. -/
theorem access_path_ignores_type_claim :
    c5Forged.claims.type = some TokenType.refresh ∧
    c5Forged.claims.type ≠ some TokenType.access ∧
    get_current_user sampleCfg [sampleUser] c5Forged 10 =
      some (toPublicUser sampleUser) := by decide

theorem jwtDecode_none (t : SignedToken) (secret alg aud iss : String)
    (now : Nat)
    (h : t.secret ≠ secret ∨ t.claims.exp ≤ now ∨
      t.claims.iss ≠ iss ∨ t.claims.aud ≠ aud) :
    jwtDecode t secret alg aud iss now = none := by
  unfold jwtDecode
  rw [if_neg]
  intro hcond
  simp only [Bool.and_eq_true, beq_iff_eq, decide_eq_true_eq] at hcond
  rcases h with h | h | h | h
  · exact h hcond.1.1.1.1
  · exact absurd hcond.1.1.2 (Nat.not_lt.2 h)
  · exact h hcond.1.2
  · exact h hcond.2

/-- **C5 (amended).** Both verification paths reject, with the uniform
failure, any token failing the signature (secret), expiry, issuer or
audience check; the type-claim check is performed by the refresh path
(`verify_refresh_token`) only — as `access_path_ignores_type_claim`
shows, `get_current_user` never reads the `type` claim and relies on the
dual secrets alone to reject refresh tokens. -/
theorem verification_checks_short_circuit :
    (∀ (cfg : Config) (users : List UserInDB) (db : Ledger)
        (token : SignedToken) (now : Nat),
      (token.secret ≠ cfg.REFRESH_SECRET_KEY ∨ token.claims.exp ≤ now ∨
        token.claims.iss ≠ cfg.JWT_ISSUER ∨
        token.claims.aud ≠ cfg.JWT_AUDIENCE ∨
        token.claims.type ≠ some TokenType.refresh) →
      verify_refresh_token cfg users db token now = none) ∧
    (∀ (cfg : Config) (users : List UserInDB) (token : SignedToken)
        (now : Nat),
      (token.secret ≠ cfg.SECRET_KEY ∨ token.claims.exp ≤ now ∨
        token.claims.iss ≠ "hermes-api" ∨
        token.claims.aud ≠ "hermes-mobile-app") →
      get_current_user cfg users token now = none) := by
  constructor
  · intro cfg users db token now h
    by_cases htype : token.claims.type = some TokenType.refresh
    · have hdec : jwtDecode token cfg.REFRESH_SECRET_KEY cfg.ALGORITHM
          cfg.JWT_AUDIENCE cfg.JWT_ISSUER now = none := by
        apply jwtDecode_none
        rcases h with h | h | h | h | h
        · exact Or.inl h
        · exact Or.inr (Or.inl h)
        · exact Or.inr (Or.inr (Or.inl h))
        · exact Or.inr (Or.inr (Or.inr h))
        · exact absurd htype h
      unfold verify_refresh_token
      rw [hdec]
      rfl
    · unfold verify_refresh_token
      cases hd : jwtDecode token cfg.REFRESH_SECRET_KEY cfg.ALGORITHM
          cfg.JWT_AUDIENCE cfg.JWT_ISSUER now with
      | none => rfl
      | some payload =>
        obtain ⟨rfl, -⟩ := jwtDecode_eq_some hd
        simp only [bind, Option.some_bind]
        rw [if_pos htype]
  · intro cfg users token now h
    unfold get_current_user
    rw [jwtDecode_none token cfg.SECRET_KEY cfg.ALGORITHM
      "hermes-mobile-app" "hermes-api" now h]

/-- Witness for C5 (amended): an expired token is rejected by both
paths. -/
theorem verification_checks_short_circuit_witness :
    verify_refresh_token sampleCfg [sampleUser] [] c5Forged 200 = none ∧
    get_current_user sampleCfg [sampleUser] c5Forged 200 = none :=
  ⟨verification_checks_short_circuit.1 sampleCfg [sampleUser] [] c5Forged
      200 (Or.inr (Or.inl (by decide))),
   verification_checks_short_circuit.2 sampleCfg [sampleUser] c5Forged
      200 (Or.inr (Or.inl (by decide)))⟩

/-- A not-revoked but already-expired row for user `"u"`. -/
def c3Expired : RefreshTokenDB :=
  { jti := "j-exp", token_hash := sampleHash, user_uuid := "u",
    expires_at := 5, created_at := 0, revoked := false,
    revoked_at := none }

/-- Counterexample to C3: at time 50 user `"u"` has **no** not-revoked,
not-expired row, yet `revoke_oldest_tokens` returns `True` and revokes
the expired row — its `WHERE` clause filters only on `revoked == False`
and ignores expiry. -/
theorem revoke_oldest_revokes_expired_row :
    (∀ r ∈ [c3Expired],
      ¬(r.user_uuid = "u" ∧ r.revoked = false ∧ 50 < r.expires_at)) ∧
    RefreshTokenRepository.revoke_oldest_tokens [c3Expired] "u" 50 =
      (true, [RefreshTokenRepository.revokeRecord c3Expired 50]) := by
  decide

/-- **C3 (amended).** `revoke_oldest_tokens` revokes exactly the single
**not-revoked** row of the user with the earliest `created_at` —
regardless of whether it has expired — and returns `True`; it returns
`False` and changes nothing exactly when the user has no not-revoked
row (not, as claimed, no not-revoked **and not-expired** row). -/
theorem revoke_oldest_tokens_spec (db : Ledger) (u : String) (now : Nat) :
    ((∀ r ∈ db, RefreshTokenRepository.isUnrevokedFor u r = false) →
      RefreshTokenRepository.revoke_oldest_tokens db u now = (false, db)) ∧
    (∀ r0 ∈ db, RefreshTokenRepository.isUnrevokedFor u r0 = true →
      ∃ i r, db.get? i = some r ∧
        RefreshTokenRepository.isUnrevokedFor u r = true ∧
        (∀ s ∈ db, RefreshTokenRepository.isUnrevokedFor u s = true →
          r.created_at ≤ s.created_at) ∧
        RefreshTokenRepository.revoke_oldest_tokens db u now =
          (true, db.set i (RefreshTokenRepository.revokeRecord r now))) := by
  constructor
  · intro hall
    unfold RefreshTokenRepository.revoke_oldest_tokens
    rw [(RefreshTokenRepository.oldestIdx_eq_none db 0).2 hall]
  · intro r0 h0 hp0
    cases hidx : RefreshTokenRepository.oldestIdx
        (RefreshTokenRepository.isUnrevokedFor u) db 0 with
    | none =>
      have hall := (RefreshTokenRepository.oldestIdx_eq_none db 0).1 hidx
      rw [hall r0 h0] at hp0
      exact Bool.noConfusion hp0
    | some kr =>
      rcases kr with ⟨k, r⟩
      obtain ⟨-, hget, hp, hmin⟩ :=
        RefreshTokenRepository.oldestIdx_eq_some db 0 k r hidx
      refine ⟨k, r, by simpa using hget, hp, hmin, ?_⟩
      unfold RefreshTokenRepository.revoke_oldest_tokens
      rw [hidx]

/-- An already-revoked row for the C3 witness. -/
def c3Revoked : RefreshTokenDB :=
  { jti := "j-rev", token_hash := sampleHash, user_uuid := "u",
    expires_at := 100, created_at := 0, revoked := true,
    revoked_at := some 1 }

/-- Witness for C3 (amended): with only a revoked row present,
`revoke_oldest_tokens` returns `False` and changes nothing. -/
theorem revoke_oldest_tokens_spec_witness :
    RefreshTokenRepository.revoke_oldest_tokens [c3Revoked] "u" 50 =
      (false, [c3Revoked]) :=
  (revoke_oldest_tokens_spec [c3Revoked] "u" 50).1 (by decide)

theorem isActiveFor_eq_true {u : String} {now : Nat} {r : RefreshTokenDB} :
    RefreshTokenRepository.isActiveFor u now r = true ↔
      r.user_uuid = u ∧ r.revoked = false ∧ now < r.expires_at := by
  simp [RefreshTokenRepository.isActiveFor, and_assoc]

theorem isUnrevokedFor_eq_true {u : String} {r : RefreshTokenDB} :
    RefreshTokenRepository.isUnrevokedFor u r = true ↔
      r.user_uuid = u ∧ r.revoked = false := by
  simp [RefreshTokenRepository.isUnrevokedFor]

theorem count_active_append (db : Ledger) (r : RefreshTokenDB)
    (u : String) (now : Nat) :
    RefreshTokenRepository.count_active_tokens_for_user (db ++ [r]) u now =
      RefreshTokenRepository.count_active_tokens_for_user db u now +
        (if RefreshTokenRepository.isActiveFor u now r then 1 else 0) := by
  unfold RefreshTokenRepository.count_active_tokens_for_user
  rw [List.filter_append, List.length_append]
  congr 1
  by_cases hr : RefreshTokenRepository.isActiveFor u now r = true
  · simp [hr]
  · simp [hr]

theorem count_active_set_revoke :
    ∀ (db : Ledger) (i : Nat) (r : RefreshTokenDB) (u : String)
      (now n : Nat), db.get? i = some r →
      RefreshTokenRepository.isActiveFor u now r = true →
      RefreshTokenRepository.count_active_tokens_for_user
          (db.set i (RefreshTokenRepository.revokeRecord r n)) u now + 1 =
        RefreshTokenRepository.count_active_tokens_for_user db u now := by
  intro db
  induction db with
  | nil => intro i r u now n h; simp at h
  | cons x xs ih =>
    intro i r u now n hget hact
    cases i with
    | zero =>
      simp only [List.get?] at hget
      cases hget
      simp only [List.set,
        RefreshTokenRepository.count_active_tokens_for_user,
        List.filter_cons, RefreshTokenRepository.isActiveFor_revokeRecord,
        hact, if_true, Bool.false_eq_true, if_false, List.length_cons]
    | succ j =>
      simp only [List.get?] at hget
      have hrec := ih j r u now n hget hact
      simp only [List.set,
        RefreshTokenRepository.count_active_tokens_for_user,
        List.filter_cons] at hrec ⊢
      by_cases hx : RefreshTokenRepository.isActiveFor u now x = true
      · simp only [hx, if_true, List.length_cons]
        omega
      · simp only [hx, if_false, Bool.false_eq_true]
        omega

theorem exists_active_of_count_pos (db : Ledger) (u : String) (now : Nat)
    (h : 0 < RefreshTokenRepository.count_active_tokens_for_user db u now) :
    ∃ r ∈ db, RefreshTokenRepository.isActiveFor u now r = true := by
  unfold RefreshTokenRepository.count_active_tokens_for_user at h
  cases hf : db.filter (RefreshTokenRepository.isActiveFor u now) with
  | nil => rw [hf] at h; simp at h
  | cons r rs =>
    have hr : r ∈ db.filter (RefreshTokenRepository.isActiveFor u now) :=
      hf ▸ List.mem_cons_self r rs
    exact ⟨r, List.mem_of_mem_filter hr, List.of_mem_filter hr⟩

theorem mem_of_get?_eq_some :
    ∀ (db : Ledger) (i : Nat) (r : RefreshTokenDB),
      db.get? i = some r → r ∈ db := by
  intro db
  induction db with
  | nil => intro i r h; simp at h
  | cons x xs ih =>
    intro i r h
    cases i with
    | zero =>
      simp only [List.get?] at h
      cases h
      exact List.mem_cons_self _ _
    | succ j =>
      simp only [List.get?] at h
      exact List.mem_cons_of_mem x (ih j r h)

theorem count_append_le (db : Ledger) (r : RefreshTokenDB)
    (u : String) (now : Nat) :
    RefreshTokenRepository.count_active_tokens_for_user (db ++ [r]) u now ≤
      RefreshTokenRepository.count_active_tokens_for_user db u now + 1 := by
  rw [count_active_append]
  split <;> omega

/-- An expired-but-unrevoked old row for user `"u"` (its `expires_at` 5
is in the past at time 50). -/
def c2ExpiredOld : RefreshTokenDB :=
  { jti := "j-old", token_hash := sampleHash, user_uuid := "u",
    expires_at := 5, created_at := 0, revoked := false,
    revoked_at := none }

/-- A live active row for user `"u"` at time 50. -/
def c2Active : RefreshTokenDB :=
  { jti := "j-act", token_hash := sampleHash, user_uuid := "u",
    expires_at := 100, created_at := 10, revoked := false,
    revoked_at := none }

/-- The sample configuration with a cap of 1 active token per user. -/
def c2Cfg : Config :=
  { sampleCfg with MAX_ACTIVE_TOKENS_PER_USER := 1 }

/-- Counterexample to C2: with `maxActive = 1` and a ledger holding one
expired-unrevoked row (the user's oldest) and one active row, the active
count is 1 ≥ 1, so `create_and_store_tokens` evicts — but the eviction
revokes the **expired** oldest unrevoked row, leaving the active count
at 1, and then mints a second active token: immediately after issuance
the user has 2 active rows, exceeding the configured maximum 1. -/
theorem cap_exceeded_after_issuance :
    c2Cfg.MAX_ACTIVE_TOKENS_PER_USER = 1 ∧
    RefreshTokenRepository.count_active_tokens_for_user
      [c2ExpiredOld, c2Active] "u" 50 = 1 ∧
    RefreshTokenRepository.count_active_tokens_for_user
      (create_and_store_tokens c2Cfg [c2ExpiredOld, c2Active] "u"
        (some 900) (some 604800) "j-new" 50).2 "u" 50 = 2 := by
  decide

/-- **C2 (amended).** The cap is an upper bound immediately after
`create_and_store_tokens` **provided** every not-revoked row the user
holds is unexpired at issuance time (so eviction, which picks the oldest
not-revoked row regardless of expiry, actually removes an active row),
the pre-call active count is within the cap, and the cap is at least 1;
`cap_exceeded_after_issuance` shows the bound fails for ledgers with an
older expired-unrevoked row.  Additionally, the spec's sequential-login
scenario (cap 3, four logins from an empty ledger at times 0,1,2,3)
yields exactly 3 active rows with the earliest-issued token `"j1"`
revoked and `"j2"`–`"j4"` still active. -/
theorem create_and_store_tokens_cap (cfg : Config) (db : Ledger)
    (u : String) (a b : Option Nat) (jti : String) (now : Nat)
    (hmax : 1 ≤ cfg.MAX_ACTIVE_TOKENS_PER_USER)
    (hcount : RefreshTokenRepository.count_active_tokens_for_user db u now ≤
      cfg.MAX_ACTIVE_TOKENS_PER_USER)
    (hnoexp : ∀ r ∈ db, r.user_uuid = u → r.revoked = false →
      now < r.expires_at) :
    (RefreshTokenRepository.count_active_tokens_for_user
        (create_and_store_tokens cfg db u a b jti now).2 u now ≤
      cfg.MAX_ACTIVE_TOKENS_PER_USER) ∧
    (RefreshTokenRepository.count_active_tokens_for_user
        (create_and_store_tokens sampleCfg
          (create_and_store_tokens sampleCfg
            (create_and_store_tokens sampleCfg
              (create_and_store_tokens sampleCfg [] sampleUuid
                (some 900) (some 604800) "j1" 0).2 sampleUuid
              (some 900) (some 604800) "j2" 1).2 sampleUuid
            (some 900) (some 604800) "j3" 2).2 sampleUuid
          (some 900) (some 604800) "j4" 3).2 sampleUuid 3 = 3 ∧
      (∀ r ∈ (create_and_store_tokens sampleCfg
          (create_and_store_tokens sampleCfg
            (create_and_store_tokens sampleCfg
              (create_and_store_tokens sampleCfg [] sampleUuid
                (some 900) (some 604800) "j1" 0).2 sampleUuid
              (some 900) (some 604800) "j2" 1).2 sampleUuid
            (some 900) (some 604800) "j3" 2).2 sampleUuid
          (some 900) (some 604800) "j4" 3).2,
        (r.jti = "j1" → r.revoked = true) ∧
        ((r.jti = "j2" ∨ r.jti = "j3" ∨ r.jti = "j4") →
          r.revoked = false))) := by
  constructor
  · obtain ⟨row, hrow⟩ :
        ∃ row, (create_and_store_tokens cfg db u a b jti now).2 =
          (if RefreshTokenRepository.count_active_tokens_for_user db u now ≥
              cfg.MAX_ACTIVE_TOKENS_PER_USER
            then (RefreshTokenRepository.revoke_oldest_tokens db u now).2
            else db) ++ [row] :=
      ⟨_, rfl⟩
    rw [hrow]
    by_cases hcap : RefreshTokenRepository.count_active_tokens_for_user db
        u now ≥ cfg.MAX_ACTIVE_TOKENS_PER_USER
    · rw [if_pos hcap]
      have hpos : 0 < RefreshTokenRepository.count_active_tokens_for_user
          db u now := lt_of_lt_of_le hmax hcap
      obtain ⟨ra, hra, hacta⟩ := exists_active_of_count_pos db u now hpos
      have hpa : RefreshTokenRepository.isUnrevokedFor u ra = true := by
        obtain ⟨h1, h2, -⟩ := isActiveFor_eq_true.1 hacta
        exact isUnrevokedFor_eq_true.2 ⟨h1, h2⟩
      cases hidx : RefreshTokenRepository.oldestIdx
          (RefreshTokenRepository.isUnrevokedFor u) db 0 with
      | none =>
        have hall := (RefreshTokenRepository.oldestIdx_eq_none db 0).1 hidx
        rw [hall ra hra] at hpa
        exact Bool.noConfusion hpa
      | some kr =>
        rcases kr with ⟨k, r⟩
        obtain ⟨-, hget, hp, -⟩ :=
          RefreshTokenRepository.oldestIdx_eq_some db 0 k r hidx
        have hget' : db.get? k = some r := by simpa using hget
        obtain ⟨huu, hrev⟩ := isUnrevokedFor_eq_true.1 hp
        have hlt : now < r.expires_at :=
          hnoexp r (mem_of_get?_eq_some db k r hget') huu hrev
        have hactr : RefreshTokenRepository.isActiveFor u now r = true :=
          isActiveFor_eq_true.2 ⟨huu, hrev, hlt⟩
        have hsnd : (RefreshTokenRepository.revoke_oldest_tokens db u
            now).2 = db.set k (RefreshTokenRepository.revokeRecord r now) := by
          unfold RefreshTokenRepository.revoke_oldest_tokens
          rw [hidx]
        rw [hsnd]
        have hdec := count_active_set_revoke db k r u now now hget' hactr
        have happ := count_append_le
          (db.set k (RefreshTokenRepository.revokeRecord r now)) row u now
        omega
    · rw [if_neg hcap]
      have happ := count_append_le db row u now
      omega
  · refine ⟨by decide, by decide⟩

/-- Witness for C2 (amended) at a one-row active ledger with cap 1: the
count after issuance stays at the cap. -/
theorem create_and_store_tokens_cap_witness :
    RefreshTokenRepository.count_active_tokens_for_user
        (create_and_store_tokens c2Cfg [c2Active] "u"
          (some 900) (some 604800) "j-new2" 50).2 "u" 50 ≤
      c2Cfg.MAX_ACTIVE_TOKENS_PER_USER :=
  (create_and_store_tokens_cap c2Cfg [c2Active] "u"
    (some 900) (some 604800) "j-new2" 50
    (by decide) (by decide)
    (by decide)).1

/-- An unrevoked row for the C9 counterexample. -/
def c9Row : RefreshTokenDB :=
  { jti := "j9", token_hash := sampleHash, user_uuid := "u",
    expires_at := 100, created_at := 0, revoked := false,
    revoked_at := none }

/-- Counterexample to C9: applying the bare `revoke` operation twice to
the same row overwrites `revoked_at` (from `some 10` to `some 20`) on a
row that is already revoked — `revoke` sets `revoked_at` unconditionally,
with no not-revoked guard. -/
theorem revoked_at_overwritten_by_bare_revoke :
    applyOp [c9Row] (LedgerOp.revokeOp "j9" 10) =
      [{ c9Row with revoked := true, revoked_at := some 10 }] ∧
    applyOp (applyOp [c9Row] (LedgerOp.revokeOp "j9" 10))
        (LedgerOp.revokeOp "j9" 20) =
      [{ c9Row with revoked := true, revoked_at := some 20 }] := by
  decide

namespace RefreshTokenRepository

theorem revoke_by_jti_preserves_revoked :
    ∀ (db : Ledger) (j : String) (n : Nat) (r : RefreshTokenDB),
      r ∈ db → r.revoked = true →
      r ∈ (revoke_by_jti db j n).2 := by
  intro db j n
  induction db with
  | nil => intro r h; simp at h
  | cons x xs ih =>
    intro r hr hrev
    simp only [revoke_by_jti]
    by_cases hx : (x.jti == j) = true
    · by_cases hrx : x.revoked = true
      · simp only [hx, hrx, if_true]
        exact hr
      · simp only [hx, hrx, if_true, Bool.false_eq_true, if_false]
        rcases List.mem_cons.1 hr with rfl | hmem
        · exact absurd hrev (by simpa using hrx)
        · exact List.mem_cons_of_mem _ hmem
    · simp only [hx, Bool.false_eq_true, if_false]
      rcases List.mem_cons.1 hr with rfl | hmem
      · exact List.mem_cons_self _ _
      · exact List.mem_cons_of_mem _ (ih r hmem hrev)

theorem revoke_all_preserves_revoked :
    ∀ (db : Ledger) (u : String) (n : Nat) (r : RefreshTokenDB),
      r ∈ db → r.revoked = true →
      r ∈ (revoke_all_for_user db u n).2 := by
  intro db u n
  induction db with
  | nil => intro r h; simp at h
  | cons x xs ih =>
    intro r hr hrev
    simp only [revoke_all_for_user]
    by_cases hx : (x.user_uuid == u && !x.revoked) = true
    · simp only [hx, if_true]
      rcases List.mem_cons.1 hr with rfl | hmem
      · exfalso
        simp only [Bool.and_eq_true, Bool.not_eq_true'] at hx
        rw [hx.2] at hrev
        exact Bool.noConfusion hrev
      · exact List.mem_cons_of_mem _ (ih r hmem hrev)
    · simp only [hx, Bool.false_eq_true, if_false]
      rcases List.mem_cons.1 hr with rfl | hmem
      · exact List.mem_cons_self _ _
      · exact List.mem_cons_of_mem _ (ih r hmem hrev)

end RefreshTokenRepository

theorem mem_set_of_ne_get :
    ∀ (db : Ledger) (i : Nat) (w v r : RefreshTokenDB),
      db.get? i = some w → r ∈ db → r ≠ w → r ∈ db.set i v := by
  intro db
  induction db with
  | nil => intro i w v r h; simp at h
  | cons x xs ih =>
    intro i w v r hget hr hne
    cases i with
    | zero =>
      simp only [List.get?] at hget
      cases hget
      simp only [List.set]
      rcases List.mem_cons.1 hr with rfl | hmem
      · exact absurd rfl hne
      · exact List.mem_cons_of_mem _ hmem
    | succ j =>
      simp only [List.get?] at hget
      simp only [List.set]
      rcases List.mem_cons.1 hr with rfl | hmem
      · exact List.mem_cons_self _ _
      · exact List.mem_cons_of_mem _ (ih j w v r hget hmem hne)

/-- **C9 (amended).** The `revoked` flag is monotonic under **every**
ledger operation: any row that is unrevoked after an operation is an
untouched row of the input table or the row freshly inserted by a
`create` (no operation ever clears `revoked`).  `revoked_at` is written
exactly once by the **guarded** operations — under `revoke_by_jti`,
`revoke_all_for_user`, `revoke_oldest_tokens`, `create` and the expiry
sweep, an already-revoked row persists bit-for-bit unchanged (its
`revoked_at` untouched) unless the sweep physically deletes it because
it is expired.  The bare `revoke`, by contrast, overwrites `revoked_at`
of an already-revoked row (`revoked_at_overwritten_by_bare_revoke`), so
the claim's write-once property fails for it. -/
theorem revoked_monotonic_and_revoked_at_write_once :
    (∀ (db : Ledger) (op : LedgerOp) (r' : RefreshTokenDB),
      r' ∈ applyOp db op → r'.revoked = false →
      r' ∈ db ∨ createdRow op = some r') ∧
    (∀ (db : Ledger) (op : LedgerOp) (r : RefreshTokenDB),
      isBareRevoke op = false → r ∈ db → r.revoked = true →
      r ∈ applyOp db op ∨
        ∃ n, op = LedgerOp.deleteExpiredOp n ∧ r.expires_at < n) := by
  constructor
  · intro db op r' hmem hrev
    rcases mem_applyOp db op r' hmem with h1 | h2 | h3
    · exact Or.inl h1
    · rw [hrev] at h2
      exact Bool.noConfusion h2
    · exact Or.inr h3
  · intro db op r hbare hr hrev
    cases op with
    | createOp jti hsh uuid exp now =>
      refine Or.inl ?_
      simp only [applyOp, RefreshTokenRepository.create]
      exact List.mem_append.2 (Or.inl hr)
    | revokeOp j n => simp [isBareRevoke] at hbare
    | revokeByJtiOp j n =>
      exact Or.inl
        (RefreshTokenRepository.revoke_by_jti_preserves_revoked db j n r
          hr hrev)
    | revokeAllOp u n =>
      exact Or.inl
        (RefreshTokenRepository.revoke_all_preserves_revoked db u n r
          hr hrev)
    | deleteExpiredOp n =>
      by_cases hexp : r.expires_at < n
      · exact Or.inr ⟨n, rfl, hexp⟩
      · refine Or.inl ?_
        simp only [applyOp, RefreshTokenRepository.delete_expired_tokens]
        exact List.mem_filter.2 ⟨hr, by simpa using hexp⟩
    | revokeOldestOp u n =>
      refine Or.inl ?_
      simp only [applyOp, RefreshTokenRepository.revoke_oldest_tokens]
      cases hidx : RefreshTokenRepository.oldestIdx
          (RefreshTokenRepository.isUnrevokedFor u) db 0 with
      | none => exact hr
      | some kr =>
        rcases kr with ⟨k, w⟩
        obtain ⟨-, hget, hp, -⟩ :=
          RefreshTokenRepository.oldestIdx_eq_some db 0 k w hidx
        have hget' : db.get? k = some w := by simpa using hget
        have hwrev : w.revoked = false := (isUnrevokedFor_eq_true.1 hp).2
        refine mem_set_of_ne_get db k w _ r hget' hr ?_
        intro hEq
        rw [hEq, hwrev] at hrev
        exact Bool.noConfusion hrev

/-- Witness for C9 (amended): an already-revoked row survives a
`revoke_by_jti` for its own `jti` unchanged. -/
theorem revoked_monotonic_write_once_witness :
    c3Revoked ∈ applyOp [c3Revoked] (LedgerOp.revokeByJtiOp "j-rev" 99) ∨
      ∃ n, LedgerOp.revokeByJtiOp "j-rev" 99 = LedgerOp.deleteExpiredOp n ∧
        c3Revoked.expires_at < n :=
  revoked_monotonic_and_revoked_at_write_once.2 [c3Revoked]
    (LedgerOp.revokeByJtiOp "j-rev" 99) c3Revoked
    (by decide) (by decide) (by decide)

/-- An environment providing the six `get_required_env_var` values but
leaving `JWT_ISSUER` and `JWT_AUDIENCE` unset. -/
def c10Env : String → Option String := fun name =>
  if name = "DATABASE_URL" then some "postgres://db"
  else if name = "SECRET_KEY" then some "a"
  else if name = "REFRESH_SECRET_KEY" then some "b"
  else if name = "ALGORITHM" then some "HS256"
  else if name = "ACCESS_TOKEN_EXPIRE_MINUTES" then some "15"
  else if name = "REFRESH_TOKEN_EXPIRE_DAYS" then some "7"
  else if name = "MAX_ACTIVE_TOKENS_PER_USER" then some "3"
  else none

/-- The configuration `c10Env` loads to. -/
def c10Loaded : LoadedConfig :=
  { DATABASE_URL := "postgres://db", ENV := "development",
    SECRET_KEY := "a", REFRESH_SECRET_KEY := "b", ALGORITHM := "HS256",
    ACCESS_TOKEN_EXPIRE_MINUTES := 15, REFRESH_TOKEN_EXPIRE_DAYS := 7,
    MAX_ACTIVE_TOKENS_PER_USER := 3,
    JWT_ISSUER := "hermes-api", JWT_AUDIENCE := "hermes-mobile-app" }

/-- Counterexample to C10: with `JWT_ISSUER` and `JWT_AUDIENCE` absent
from the environment, configuration loading **succeeds**, silently
substituting the built-in defaults `"hermes-api"` and
`"hermes-mobile-app"` — it does not fail as claimed for these two of
the eight values. -/
theorem issuer_audience_have_silent_defaults :
    c10Env "JWT_ISSUER" = none ∧ c10Env "JWT_AUDIENCE" = none ∧
    loadConfig c10Env = Except.ok c10Loaded := ⟨rfl, rfl, rfl⟩

theorem except_bind_ok {α β : Type} {x : Except String α}
    {f : α → Except String β} {b : β} (h : (x >>= f) = Except.ok b) :
    ∃ a, x = Except.ok a ∧ f a = Except.ok b := by
  cases x with
  | error e => simp [Bind.bind, Except.bind] at h
  | ok a => exact ⟨a, rfl, by simpa [Bind.bind, Except.bind] using h⟩

theorem get_required_env_var_ok {env : String → Option String}
    {v s : String} (h : get_required_env_var env v = Except.ok s) :
    env v = some s ∧ s ≠ "" := by
  unfold get_required_env_var at h
  split at h
  · exact Except.noConfusion h
  · split at h
    · exact Except.noConfusion h
    · rename_i t heq hne
      cases h
      exact ⟨heq, by simpa using hne⟩

/-- **C10 (amended).** Six of the eight configuration values consumed by
the token core — the access secret, the refresh secret, the signing
algorithm, the access-token lifetime, the refresh-token lifetime, and
the per-user active-token maximum — are required at load time with no
silent default: loading only succeeds when each is present and
non-empty.  The issuer and audience strings, however, are **not**
required: when absent, loading succeeds with the built-in defaults
`"hermes-api"` and `"hermes-mobile-app"`
(`issuer_audience_have_silent_defaults`). -/
theorem required_config_values (env : String → Option String)
    (c : LoadedConfig) (h : loadConfig env = Except.ok c) :
    (∃ s, env "SECRET_KEY" = some s ∧ s ≠ "") ∧
    (∃ s, env "REFRESH_SECRET_KEY" = some s ∧ s ≠ "") ∧
    (∃ s, env "ALGORITHM" = some s ∧ s ≠ "") ∧
    (∃ s, env "ACCESS_TOKEN_EXPIRE_MINUTES" = some s ∧ s ≠ "") ∧
    (∃ s, env "REFRESH_TOKEN_EXPIRE_DAYS" = some s ∧ s ≠ "") ∧
    (∃ s, env "MAX_ACTIVE_TOKENS_PER_USER" = some s ∧ s ≠ "") ∧
    (env "JWT_ISSUER" = none → c.JWT_ISSUER = "hermes-api") ∧
    (env "JWT_AUDIENCE" = none → c.JWT_AUDIENCE = "hermes-mobile-app") := by
  unfold loadConfig at h
  obtain ⟨dbu, hdbu, h⟩ := except_bind_ok h
  obtain ⟨sk, hsk, h⟩ := except_bind_ok h
  obtain ⟨rsk, hrsk, h⟩ := except_bind_ok h
  obtain ⟨alg, halg, h⟩ := except_bind_ok h
  obtain ⟨am, ham, h⟩ := except_bind_ok h
  obtain ⟨amv, hamv, h⟩ := except_bind_ok h
  obtain ⟨rd, hrd, h⟩ := except_bind_ok h
  obtain ⟨rdv, hrdv, h⟩ := except_bind_ok h
  obtain ⟨ma, hma, h⟩ := except_bind_ok h
  obtain ⟨mav, hmav, h⟩ := except_bind_ok h
  cases h
  obtain ⟨hsk1, hsk2⟩ := get_required_env_var_ok hsk
  obtain ⟨hrsk1, hrsk2⟩ := get_required_env_var_ok hrsk
  obtain ⟨halg1, halg2⟩ := get_required_env_var_ok halg
  obtain ⟨ham1, ham2⟩ := get_required_env_var_ok ham
  obtain ⟨hrd1, hrd2⟩ := get_required_env_var_ok hrd
  obtain ⟨hma1, hma2⟩ := get_required_env_var_ok hma
  refine ⟨⟨sk, hsk1, hsk2⟩, ⟨rsk, hrsk1, hrsk2⟩, ⟨alg, halg1, halg2⟩,
    ⟨am, ham1, ham2⟩, ⟨rd, hrd1, hrd2⟩, ⟨ma, hma1, hma2⟩, ?_, ?_⟩
  · intro hiss
    simp [hiss]
  · intro haud
    simp [haud]

/-- Witness for C10 (amended): applied at the concrete environment
`c10Env` (issuer and audience absent), yielding both a required-variable
presence fact and the issuer default. -/
theorem required_config_values_witness :
    (∃ s, c10Env "SECRET_KEY" = some s ∧ s ≠ "") ∧
    c10Loaded.JWT_ISSUER = "hermes-api" :=
  ⟨(required_config_values c10Env c10Loaded rfl).1,
   (required_config_values c10Env c10Loaded rfl).2.2.2.2.2.2.1 rfl⟩
